import Mathlib

set_option autoImplicit false
set_option maxHeartbeats 1000000

/-!
Shallow embedding of the pgml language bridge:
its value bridge and stream bridge live in
src/pgml-sdks/pgml/src/languages/python.rs, its logger and runtime
singletons in src/pgml-sdks/rust/pgml/src/lib.rs.
-/

/-- A host (CPython) floating-point value: either a finite value, modelled
exactly by a rational payload, or one of the non-finite IEEE values (NaN and
the two infinities), whose payloads the bridge never inspects. -/
inductive F64 where
  | finite (q : Rat)
  | nan
  | inf
  | negInf
deriving DecidableEq, Repr

/-- The dynamic value `serde_json::Value` wrapped by `Json` in types.rs.
A `Number` is integer-tagged or float-tagged at construction
(`i64::into` resp. `Number::from_f64`), mirrored here by the two
constructors `numInt` and `numFloat`.  An integer-tagged serde number is
stored as `i64` or `u64`; `numInt` carries an unbounded `Int` whose values
above `i64::MAX` model the `u64`-backed numbers (on which `as_i64` returns
`None`).  A float-tagged number is always finite because `from_f64`
rejects NaN and the infinities, so `numFloat` carries a plain rational.
An `Object` is the ordered map `serde_json::Map`. Modelled from the spec:
the repository's dependency selection (`preserve_order`) is not under src/,
and the spec fixes `Object` as a mapping whose key insertion order is
preserved, so the map is embedded as an insertion-ordered association
list with pairwise-distinct keys maintained by `assocInsert`. -/
inductive Json where
  | null
  | bool (b : Bool)
  | numInt (n : Int)
  | numFloat (q : Rat)
  | str (s : String)
  | arr (elements : List Json)
  | obj (entries : List (String × Json))
deriving Repr

/-- A host (CPython) runtime value as seen through pyo3's type tests.
`dict` keys are embedded as strings (a non-string key would fail the
recoverable `String::extract(key)?` in the dict branch, which no claim
exercises).  `other` stands for any object of a type outside the six
supported shapes, carrying only the name of its type. -/
inductive PyValue where
  | none
  | bool (b : Bool)
  | int (n : Int)
  | float (f : F64)
  | str (s : String)
  | list (elements : List PyValue)
  | dict (entries : List (String × PyValue))
  | other (typeName : String)
deriving Repr

/-- Outcome tag of a bridge call on the Rust side.  `pyErr` models a
recoverable Python exception returned as `Err` through `?` (ordinary
`PyResult` failure, surfaced to the caller).  `panicked` models a Rust
`panic!` / `.expect` / `.unwrap`: an abort of the call that is not a
recoverable error value — the spec (sections 7 and 9) treats these as
unconditional process termination, not as surfaced errors. -/
inductive BridgeError where
  | pyErr (msg : String)
  | panicked (msg : String)
deriving DecidableEq, Repr

/-- Membership of a key in a list of keys, by string equality. -/
def keyMem (k : String) : List String → Bool
  | [] => false
  | k2 :: rest => (k == k2) || keyMem k rest

/-- Whether an association list already holds an entry for key `k`. -/
def hasKey {α : Type} (k : String) (m : List (String × α)) : Bool :=
  keyMem k (m.map Prod.fst)

/-- Pairwise distinctness of a key list. -/
def nodupKeysL : List String → Bool
  | [] => true
  | k :: rest => !(keyMem k rest) && nodupKeysL rest

/-- Pairwise distinctness of an association list's keys. -/
def nodupKeys {α : Type} (m : List (String × α)) : Bool :=
  nodupKeysL (m.map Prod.fst)

/-- Insertion into an insertion-ordered map, the shared semantics of
`serde_json::Map::insert` (preserve_order) and `PyDict::set_item`: an
existing key keeps its position and gets the new value, a new key is
appended at the end. -/
def assocInsert {α : Type} (m : List (String × α)) (k : String) (v : α) :
    List (String × α) :=
  if hasKey k m then
    m.map (fun p => if p.1 == k then (k, v) else p)
  else
    m ++ [(k, v)]

/-- serde_json's `Number::from_f64`: `Some` exactly on finite floats,
`None` on NaN and the infinities. -/
def numberFromF64 : F64 → Option Rat
  | .finite q => some q
  | .nan => Option.none
  | .inf => Option.none
  | .negInf => Option.none

/-- Whether an integer fits in a signed 64-bit machine integer, the range
on which serde's `Number::as_i64` succeeds for an integer-tagged number. -/
def fitsI64 (n : Int) : Bool :=
  decide (-(2 ^ 63) ≤ n ∧ n < 2 ^ 63)

mutual

/-- The Rust-to-Python direction `Json::into_py` (python.rs lines 15-48),
one arm per variant of the exhaustive `match`.  The float arm models
`as_f64().expect(..)`, which always succeeds on a float-tagged number; the
integer arm models `as_i64().expect("Error converting to i64 in impl
ToPyObject for Json")`, whose expect fires (a panic) exactly when the
integer-tagged number does not fit in `i64` (a `u64`-backed number above
`i64::MAX`). -/
def into_py : Json → Except BridgeError PyValue
  | .null => .ok .none
  | .bool b => .ok (.bool b)
  | .numFloat q => .ok (.float (.finite q))
  | .numInt n =>
      if fitsI64 n then .ok (.int n)
      else .error (.panicked "Error converting to i64 in impl ToPyObject for Json")
  | .str s => .ok (.str s)
  | .arr xs =>
      match into_py_list xs with
      | .error e => .error e
      | .ok hs => .ok (.list hs)
  | .obj kvs =>
      match into_py_obj kvs [] with
      | .error e => .error e
      | .ok hs => .ok (.dict hs)

/-- The loop of the `Array` arm of `into_py`: `list.append` of each
recursively converted element, in order. -/
def into_py_list : List Json → Except BridgeError (List PyValue)
  | [] => .ok []
  | x :: xs =>
      match into_py x with
      | .error e => .error e
      | .ok h =>
          match into_py_list xs with
          | .error e => .error e
          | .ok hs => .ok (h :: hs)

/-- The loop of the `Object` arm of `into_py`: `dict.set_item(k, v)` of
each recursively converted entry, in the map's iteration order, starting
from the empty `PyDict`. -/
def into_py_obj : List (String × Json) → List (String × PyValue) →
    Except BridgeError (List (String × PyValue))
  | [], acc => .ok acc
  | (k, j) :: rest, acc =>
      match into_py j with
      | .error e => .error e
      | .ok h => into_py_obj rest (assocInsert acc k h)

end

mutual

/-- The Python-to-Rust direction `Json::extract` (python.rs lines
104-143).  The source tests the runtime type of the object in this order:
PyDict, PyBool, PyInt, PyFloat, PyString, PyList, then `is_none`, and in
the final catch-all executes `panic!("Unsupported type for JSON
conversion")`.  The embedding has one arm per disjoint host constructor;
the arm order is immaterial for disjoint constructors except that a host
bool — which also satisfies the PyInt test, see `isInstanceOfPyInt` —
lands in the PyBool branch because that test is performed first.  The
PyInt branch is `i64::extract(ob)?`, a recoverable overflow error outside
the i64 range; the PyFloat branch is `Number::from_f64(..).expect("Could
not convert f64 to serde_json::Number")`, a panic on non-finite floats. -/
def extract : PyValue → Except BridgeError Json
  | .dict kvs =>
      match extract_dict kvs [] with
      | .error e => .error e
      | .ok entries => .ok (.obj entries)
  | .bool b => .ok (.bool b)
  | .int n =>
      if fitsI64 n then .ok (.numInt n)
      else .error (.pyErr "OverflowError: int too big to convert")
  | .float f =>
      match numberFromF64 f with
      | some q => .ok (.numFloat q)
      | Option.none => .error (.panicked "Could not convert f64 to serde_json::Number")
  | .str s => .ok (.str s)
  | .list xs =>
      match extract_list xs with
      | .error e => .error e
      | .ok js => .ok (.arr js)
  | .none => .ok .null
  | .other _ => .error (.panicked "Unsupported type for JSON conversion")

/-- The loop of the PyList branch of `extract`: each element extracted
recursively and pushed in order. -/
def extract_list : List PyValue → Except BridgeError (List Json)
  | [] => .ok []
  | v :: vs =>
      match extract v with
      | .error e => .error e
      | .ok j =>
          match extract_list vs with
          | .error e => .error e
          | .ok js => .ok (j :: js)

/-- The loop of the PyDict branch of `extract`: each value extracted
recursively and inserted into the accumulating `serde_json::Map` in the
dict's iteration order. -/
def extract_dict : List (String × PyValue) → List (String × Json) →
    Except BridgeError (List (String × Json))
  | [], acc => .ok acc
  | (k, v) :: rest, acc =>
      match extract v with
      | .error e => .error e
      | .ok j => extract_dict rest (assocInsert acc k j)

end

/-- The pyo3 runtime type test `ob.is_instance_of::<PyBool>()`. -/
def isInstanceOfPyBool : PyValue → Bool
  | .bool _ => true
  | _ => false

/-- The pyo3 runtime type test `ob.is_instance_of::<PyInt>()`.  A CPython
bool is a subclass of int, so a host bool satisfies this test too. -/
def isInstanceOfPyInt : PyValue → Bool
  | .bool _ => true
  | .int _ => true
  | _ => false

/-- An element of the wrapped native asynchronous sequence.  Modelled from
the spec: `transformer_pipeline::TransformerStream` itself is not under
src/, and the spec fixes the native asynchronous sequence as "a lazy,
single-consumer, possibly-infinite sequence of (dynamic value |
native-error) elements", so an element is a dynamic value or a native
error message. -/
abbrev StreamElem := Except String Json

/-- Host-visible outcome of one `__anext__` call, after the awaited future
resolves: a converted value, the `PyStopAsyncIteration("stream exhausted")`
completion signal, or a Rust panic (`expect`). -/
inductive AnextResult where
  | value (v : PyValue)
  | stopIteration
  | panicked (msg : String)
deriving Repr

/-- Processing of one pulled element inside `__anext__` (python.rs lines
72-76): a success is converted with `to_object` (the `into_py` direction,
whose own panic propagates), a failure hits
`o.expect("Error calling next on TransformerStream")` and panics. -/
def elemStep : StreamElem → AnextResult
  | .ok j =>
      match into_py j with
      | .ok h => .value h
      | .error (.panicked m) => .panicked m
      | .error (.pyErr m) => .panicked m
  | .error _ => .panicked "Error calling next on TransformerStream"

/-- One `__anext__` call on the stream bridge (python.rs lines 68-84): the
tokio mutex serializes pulls, so a step pulls exactly one element from the
remaining native sequence; `None` from the underlying `next()` becomes the
`PyStopAsyncIteration` completion signal and consumes nothing. -/
def anext : List StreamElem → AnextResult × List StreamElem
  | [] => (.stopIteration, [])
  | e :: rest => (elemStep e, rest)

/-- The results of `n` successive `__anext__` calls, threading the
remaining native sequence through. -/
def anextTrace : List StreamElem → Nat → List AnextResult
  | _, 0 => []
  | s, n + 1 => (anext s).1 :: anextTrace (anext s).2 n

/-- Severity of one log record, `log::Level`: lower number = more severe,
mirroring the log crate's `Error < Warn < Info < Debug < Trace`. -/
inductive LogLevel where
  | error
  | warn
  | info
  | debug
  | trace
deriving DecidableEq, Repr

/-- Numeric severity rank of a `log::Level`. -/
def LogLevel.toNat : LogLevel → Nat
  | .error => 1
  | .warn => 2
  | .info => 3
  | .debug => 4
  | .trace => 5

/-- The log crate's `Display` rendering of a level, as printed by
`println!("{} - {}", record.level(), record.args())`. -/
def LogLevel.display : LogLevel → String
  | .error => "ERROR"
  | .warn => "WARN"
  | .info => "INFO"
  | .debug => "DEBUG"
  | .trace => "TRACE"

/-- `log::LevelFilter`, the maximum level installed with
`log::set_max_level`. -/
inductive LogLevelFilter where
  | off
  | error
  | warn
  | info
  | debug
  | trace
deriving DecidableEq, Repr

/-- Numeric rank of a `log::LevelFilter`, comparable with
`LogLevel.toNat` exactly as the log crate compares a level against a
filter. -/
def LogLevelFilter.toNat : LogLevelFilter → Nat
  | .off => 0
  | .error => 1
  | .warn => 2
  | .info => 3
  | .debug => 4
  | .trace => 5

/-- `SimpleLogger::enabled` (lib.rs lines 32-34): a record is enabled iff
its level is at most `Level::Info` — a hard-coded cap independent of the
installed level filter. -/
def simpleLoggerEnabled (l : LogLevel) : Bool :=
  l.toNat ≤ LogLevel.info.toNat

/-- `SimpleLogger::log` (lib.rs lines 36-40): the lines written to
standard output for one record that reached the logger — one
`"<LEVEL> - <message>"` line if enabled, nothing otherwise. -/
def simpleLoggerLog (l : LogLevel) (msg : String) : List String :=
  if simpleLoggerEnabled l then [l.display ++ " - " ++ msg] else []

/-- The lines written to standard output when a record of level `l` is
issued while the installed max level is `maxLevel`: the log crate's
macros forward the record to the logger only when its level passes the
`log::max_level()` filter, and `SimpleLogger::log` then applies its own
`enabled` check. -/
def logRecord (maxLevel : LogLevelFilter) (l : LogLevel) (msg : String) :
    List String :=
  if l.toNat ≤ maxLevel.toNat then simpleLoggerLog l msg else []

/-- The log crate's one-shot registration error `SetLoggerError`,
returned by `log::set_logger` when a logger is already installed. -/
inductive SetLoggerErr where
  | alreadySet
deriving DecidableEq, Repr

/-- Process-wide logging state: whether a logger has been installed
(`log::set_logger` accepts at most one) and the installed max level. -/
structure LogState where
  installed : Bool
  maxLevel : LogLevelFilter
deriving DecidableEq, Repr

/-- `init_logger` (lib.rs lines 45-47): `log::set_logger(&LOGGER)` fails
with `SetLoggerError` if a logger is already installed — leaving the max
level untouched — and otherwise installs `SimpleLogger` and then sets the
max level to the given filter. -/
def init_logger (level : LogLevelFilter) (s : LogState) :
    Except SetLoggerErr LogState :=
  if s.installed then .error .alreadySet else .ok ⟨true, level⟩

/-- The level filter the Python module entry point passes to
`init_logger` (lib.rs line 74): `LevelFilter::Error`. -/
def pgmlDefaultFilter : LogLevelFilter := .error

/-- The `#[pymodule] fn pgml` entry point (lib.rs lines 70-77) restricted
to its logging effect: `init_logger(LevelFilter::Error).unwrap()`, so a
`SetLoggerError` from a second installation attempt is unwrapped into a
Rust panic instead of being ignored or logged. -/
def pgml_module (s : LogState) : Except BridgeError LogState :=
  match init_logger pgmlDefaultFilter s with
  | .ok s2 => .ok s2
  | .error _ =>
      .error (.panicked "called Result::unwrap on an Err value: SetLoggerError")

/-- Program counter of one thread executing `get_or_set_runtime` (lib.rs
lines 53-67), split at its accesses to the unsynchronized `static mut
RUNTIME`: `start` is about to evaluate `if let Some(r) = &RUNTIME`;
`building` has read `None` and is about to run `Builder::new..build()`;
`writing i` holds the freshly built runtime instance `i` and is about to
store `RUNTIME = Some(runtime)`, after which the function re-enters
itself (back to `start`); `done r` has returned a reference to instance
`r`.  Runtime instances are numbered by construction order. -/
inductive ThreadPC where
  | start
  | building
  | writing (inst : Nat)
  | done (ret : Nat)
deriving DecidableEq, Repr

/-- Shared state of two threads racing `get_or_set_runtime`: the
`static mut RUNTIME` cell, the number of runtime constructions performed
so far, and each thread's program counter. -/
structure RtSys where
  runtime : Option Nat
  built : Nat
  t1 : ThreadPC
  t2 : ThreadPC
deriving DecidableEq, Repr

/-- One atomic step of a single thread through `get_or_set_runtime`,
returning the new `RUNTIME` cell, construction count and program
counter. -/
def rtThreadStep (g : Option Nat) (b : Nat) : ThreadPC →
    Option Nat × Nat × ThreadPC
  | .start =>
      match g with
      | some r => (g, b, .done r)
      | Option.none => (g, b, .building)
  | .building => (g, b + 1, .writing b)
  | .writing i => (some i, b, .start)
  | .done r => (g, b, .done r)

/-- One step of the two-thread system: `true` steps thread 1, `false`
steps thread 2. -/
def rtSysStep (s : RtSys) (first : Bool) : RtSys :=
  if first then
    let r := rtThreadStep s.runtime s.built s.t1
    ⟨r.1, r.2.1, r.2.2, s.t2⟩
  else
    let r := rtThreadStep s.runtime s.built s.t2
    ⟨r.1, r.2.1, s.t1, r.2.2⟩

/-- Execution of the two-thread system under a given interleaving
schedule. -/
def rtRunSched : List Bool → RtSys → RtSys
  | [], s => s
  | c :: cs, s => rtRunSched cs (rtSysStep s c)

/-- Initial state: no runtime constructed yet, both threads entering
`get_or_set_runtime`. -/
def rtInit : RtSys := ⟨Option.none, 0, .start, .start⟩

/-- The racing schedule in which both threads evaluate the
`if let Some(r) = &RUNTIME` check before either stores its runtime:
alternate the two threads step by step until both return. -/
def rtRaceSchedule : List Bool :=
  [true, false, true, false, true, false, true, false]

mutual

/-- Well-formedness of a dynamic value as produced by the bridge and its
collaborators: every integer-tagged number is in the representable i64
range and every object's keys are pairwise distinct (the `serde_json::Map`
invariant). -/
def wfJson : Json → Bool
  | .null => true
  | .bool _ => true
  | .numInt n => fitsI64 n
  | .numFloat _ => true
  | .str _ => true
  | .arr xs => wfList xs
  | .obj kvs => nodupKeys kvs && wfKVs kvs

/-- Well-formedness of every element of an array. -/
def wfList : List Json → Bool
  | [] => true
  | x :: xs => wfJson x && wfList xs

/-- Well-formedness of every value of an object. -/
def wfKVs : List (String × Json) → Bool
  | [] => true
  | (_, j) :: rest => wfJson j && wfKVs rest

end

/-- Pointwise conversion of object entries in the outbound direction,
without the accumulating dict: the normal form of `into_py_obj` when all
keys are distinct. -/
def into_py_pairs : List (String × Json) →
    Except BridgeError (List (String × PyValue))
  | [] => .ok []
  | (k, j) :: rest =>
      match into_py j with
      | .error e => .error e
      | .ok h =>
          match into_py_pairs rest with
          | .error e => .error e
          | .ok hs => .ok ((k, h) :: hs)

/-- Pointwise conversion of dict entries in the inbound direction, without
the accumulating map: the normal form of `extract_dict` when all keys are
distinct. -/
def extract_pairs : List (String × PyValue) →
    Except BridgeError (List (String × Json))
  | [] => .ok []
  | (k, v) :: rest =>
      match extract v with
      | .error e => .error e
      | .ok j =>
          match extract_pairs rest with
          | .error e => .error e
          | .ok js => .ok ((k, j) :: js)

theorem except_map_error {ε α β : Type} (f : α → β) (e : ε) :
    Except.map f (Except.error e : Except ε α) = Except.error e := rfl

theorem except_map_ok {ε α β : Type} (f : α → β) (a : α) :
    Except.map f (Except.ok a : Except ε α) = Except.ok (f a) := rfl

@[simp]
theorem keyMem_nil (k : String) : keyMem k [] = false := rfl

@[simp]
theorem keyMem_cons (k k2 : String) (rest : List String) :
    keyMem k (k2 :: rest) = ((k == k2) || keyMem k rest) := rfl

theorem keyMem_append (k : String) (l1 l2 : List String) :
    keyMem k (l1 ++ l2) = (keyMem k l1 || keyMem k l2) := by
  induction l1 with
  | nil => simp
  | cons a l ih => simp [ih, Bool.or_assoc]

@[simp]
theorem hasKey_nil {α : Type} (k : String) :
    hasKey k ([] : List (String × α)) = false := rfl

@[simp]
theorem hasKey_cons {α : Type} (k k2 : String) (v : α)
    (m : List (String × α)) :
    hasKey k ((k2, v) :: m) = ((k == k2) || hasKey k m) := rfl

theorem hasKey_append {α : Type} (k : String) (m1 m2 : List (String × α)) :
    hasKey k (m1 ++ m2) = (hasKey k m1 || hasKey k m2) := by
  simp [hasKey, keyMem_append]

@[simp]
theorem nodupKeys_cons {α : Type} (k : String) (v : α)
    (m : List (String × α)) :
    nodupKeys ((k, v) :: m) = (!(hasKey k m) && nodupKeys m) := rfl

theorem assocInsert_fresh {α : Type} (m : List (String × α)) (k : String)
    (v : α) (h : hasKey k m = false) : assocInsert m k v = m ++ [(k, v)] := by
  simp [assocInsert, h]

theorem into_py_obj_eq (kvs : List (String × Json)) :
    ∀ acc : List (String × PyValue), nodupKeys kvs = true →
    (∀ k2, hasKey k2 kvs = true → hasKey k2 acc = false) →
    into_py_obj kvs acc = Except.map (fun out => acc ++ out) (into_py_pairs kvs) := by
  induction kvs with
  | nil =>
      intro acc _ _
      simp [into_py_obj, into_py_pairs, except_map_ok]
  | cons p rest ih =>
      obtain ⟨k, j⟩ := p
      intro acc hnd hdisj
      have hkacc : hasKey k acc = false := by
        refine hdisj k ?_
        simp
      have hkrest : hasKey k rest = false := by
        have := hnd
        simp only [nodupKeys_cons, Bool.and_eq_true, Bool.not_eq_true'] at this
        exact this.1
      have hnd' : nodupKeys rest = true := by
        have := hnd
        simp only [nodupKeys_cons, Bool.and_eq_true] at this
        exact this.2
      have hdisj' : ∀ (hv : PyValue) k2, hasKey k2 rest = true →
          hasKey k2 (acc ++ [(k, hv)]) = false := by
        intro hv k2 h2
        have hacc2 : hasKey k2 acc = false := by
          refine hdisj k2 ?_
          simp [h2]
        have hne : (k2 == k) = false := by
          by_contra hcon
          have : (k2 == k) = true := by
            cases h : (k2 == k) with
            | true => rfl
            | false => exact absurd h hcon
          have hk2k : k2 = k := eq_of_beq this
          rw [hk2k] at h2
          rw [h2] at hkrest
          exact Bool.true_eq_false.mp hkrest
        rw [hasKey_append, hacc2]
        simp [hne]
      cases h1 : into_py j with
      | error e =>
          simp [into_py_obj, into_py_pairs, h1, except_map_error]
      | ok hv =>
          have step : into_py_obj ((k, j) :: rest) acc =
              into_py_obj rest (assocInsert acc k hv) := by
            simp [into_py_obj, h1]
          rw [step, assocInsert_fresh acc k hv hkacc]
          rw [ih (acc ++ [(k, hv)]) hnd' (hdisj' hv)]
          cases h2 : into_py_pairs rest with
          | error e =>
              simp [into_py_pairs, h1, h2, except_map_error]
          | ok hs =>
              simp [into_py_pairs, h1, h2, except_map_ok]

theorem extract_dict_eq (kvs : List (String × PyValue)) :
    ∀ acc : List (String × Json), nodupKeys kvs = true →
    (∀ k2, hasKey k2 kvs = true → hasKey k2 acc = false) →
    extract_dict kvs acc = Except.map (fun out => acc ++ out) (extract_pairs kvs) := by
  induction kvs with
  | nil =>
      intro acc _ _
      simp [extract_dict, extract_pairs, except_map_ok]
  | cons p rest ih =>
      obtain ⟨k, v⟩ := p
      intro acc hnd hdisj
      have hkacc : hasKey k acc = false := by
        refine hdisj k ?_
        simp
      have hkrest : hasKey k rest = false := by
        have := hnd
        simp only [nodupKeys_cons, Bool.and_eq_true, Bool.not_eq_true'] at this
        exact this.1
      have hnd' : nodupKeys rest = true := by
        have := hnd
        simp only [nodupKeys_cons, Bool.and_eq_true] at this
        exact this.2
      have hdisj' : ∀ (j2 : Json) k2, hasKey k2 rest = true →
          hasKey k2 (acc ++ [(k, j2)]) = false := by
        intro j2 k2 h2
        have hacc2 : hasKey k2 acc = false := by
          refine hdisj k2 ?_
          simp [h2]
        have hne : (k2 == k) = false := by
          by_contra hcon
          have : (k2 == k) = true := by
            cases h : (k2 == k) with
            | true => rfl
            | false => exact absurd h hcon
          have hk2k : k2 = k := eq_of_beq this
          rw [hk2k] at h2
          rw [h2] at hkrest
          exact Bool.true_eq_false.mp hkrest
        rw [hasKey_append, hacc2]
        simp [hne]
      cases h1 : extract v with
      | error e =>
          simp [extract_dict, extract_pairs, h1, except_map_error]
      | ok j =>
          have step : extract_dict ((k, v) :: rest) acc =
              extract_dict rest (assocInsert acc k j) := by
            simp [extract_dict, h1]
          rw [step, assocInsert_fresh acc k j hkacc]
          rw [ih (acc ++ [(k, j)]) hnd' (hdisj' j)]
          cases h2 : extract_pairs rest with
          | error e =>
              simp [extract_pairs, h1, h2, except_map_error]
          | ok js =>
              simp [extract_pairs, h1, h2, except_map_ok]

mutual

theorem roundtrip_json : ∀ (v : Json), wfJson v = true →
    ∃ hv, into_py v = Except.ok hv ∧ extract hv = Except.ok v
  | .null, _ => ⟨.none, by simp [into_py], by simp [extract]⟩
  | .bool b, _ => ⟨.bool b, by simp [into_py], by simp [extract]⟩
  | .numInt n, h => by
      have hf : fitsI64 n = true := by simpa [wfJson] using h
      exact ⟨.int n, by simp [into_py, hf], by simp [extract, hf]⟩
  | .numFloat q, _ =>
      ⟨.float (.finite q), by simp [into_py], by simp [extract, numberFromF64]⟩
  | .str s, _ => ⟨.str s, by simp [into_py], by simp [extract]⟩
  | .arr xs, h => by
      have hl : wfList xs = true := by simpa [wfJson] using h
      obtain ⟨hs, h1, h2⟩ := roundtrip_list xs hl
      exact ⟨.list hs, by simp [into_py, h1], by simp [extract, h2]⟩
  | .obj kvs, h => by
      have hnd : nodupKeys kvs = true := by
        have h2 := h
        simp only [wfJson, Bool.and_eq_true] at h2
        exact h2.1
      have hwk : wfKVs kvs = true := by
        have h2 := h
        simp only [wfJson, Bool.and_eq_true] at h2
        exact h2.2
      obtain ⟨hs, h1, h2, hkeys⟩ := roundtrip_pairs kvs hwk
      have hnd2 : nodupKeys hs = true := by
        unfold nodupKeys at hnd ⊢
        rw [hkeys]
        exact hnd
      have e1 : into_py (Json.obj kvs) = Except.ok (PyValue.dict hs) := by
        have heq := into_py_obj_eq kvs [] hnd (fun k2 _ => rfl)
        simp [into_py, heq, h1, except_map_ok]
      have e2 : extract (PyValue.dict hs) = Except.ok (Json.obj kvs) := by
        have heq := extract_dict_eq hs [] hnd2 (fun k2 _ => rfl)
        simp [extract, heq, h2, except_map_ok]
      exact ⟨.dict hs, e1, e2⟩

theorem roundtrip_list : ∀ (xs : List Json), wfList xs = true →
    ∃ hs, into_py_list xs = Except.ok hs ∧ extract_list hs = Except.ok xs
  | [], _ => ⟨[], by simp [into_py_list], by simp [extract_list]⟩
  | x :: rest, h => by
      have hx : wfJson x = true := by
        have h2 := h
        simp only [wfList, Bool.and_eq_true] at h2
        exact h2.1
      have hr : wfList rest = true := by
        have h2 := h
        simp only [wfList, Bool.and_eq_true] at h2
        exact h2.2
      obtain ⟨hv, h1, h2⟩ := roundtrip_json x hx
      obtain ⟨hs, h3, h4⟩ := roundtrip_list rest hr
      exact ⟨hv :: hs, by simp [into_py_list, h1, h3],
        by simp [extract_list, h2, h4]⟩

theorem roundtrip_pairs : ∀ (kvs : List (String × Json)), wfKVs kvs = true →
    ∃ hs, into_py_pairs kvs = Except.ok hs ∧
      extract_pairs hs = Except.ok kvs ∧
      hs.map Prod.fst = kvs.map Prod.fst
  | [], _ => ⟨[], by simp [into_py_pairs], by simp [extract_pairs], rfl⟩
  | (k, j) :: rest, h => by
      have hj : wfJson j = true := by
        have h2 := h
        simp only [wfKVs, Bool.and_eq_true] at h2
        exact h2.1
      have hr : wfKVs rest = true := by
        have h2 := h
        simp only [wfKVs, Bool.and_eq_true] at h2
        exact h2.2
      obtain ⟨hv, h1, h2⟩ := roundtrip_json j hj
      obtain ⟨hs, h3, h4, h5⟩ := roundtrip_pairs rest hr
      refine ⟨(k, hv) :: hs, ?_, ?_, ?_⟩
      · simp [into_py_pairs, h1, h3]
      · simp [extract_pairs, h2, h4]
      · simp [h5]

end

theorem anextTrace_nil (k : Nat) :
    anextTrace [] k = List.replicate k AnextResult.stopIteration := by
  induction k with
  | zero => rfl
  | succ n ih => simp [anextTrace, anext, ih, List.replicate_succ]

theorem anextTrace_run (elems : List StreamElem) : ∀ k : Nat,
    anextTrace elems (elems.length + k) =
      elems.map elemStep ++ List.replicate k AnextResult.stopIteration := by
  induction elems with
  | nil =>
      intro k
      simpa using anextTrace_nil k
  | cons e rest ih =>
      intro k
      have hlen : (e :: rest).length + k = (rest.length + k) + 1 := by
        simp only [List.length_cons]
        omega
      rw [hlen]
      simp [anextTrace, anext, ih k]

/-- C1: a host value whose runtime type is none of the six supported
shapes is claimed to fail with a recoverable UnsupportedType error while
the process keeps running; the code instead reaches the catch-all
`panic!("Unsupported type for JSON conversion")` in `Json::extract`, an
abort rather than an error returned to the caller — shown here by
evaluating the extraction on a host object of an unsupported type. -/
theorem c1_unsupported_type_panics :
    extract (PyValue.other "set") =
      Except.error (BridgeError.panicked "Unsupported type for JSON conversion") := by
  simp [extract]

/-- C2: a host NaN float is claimed to fail with a recoverable
InvalidNumber error; the code instead hits
`Number::from_f64(..).expect("Could not convert f64 to serde_json::Number")`
in `Json::extract`, a panic — shown here by evaluating the extraction on
a host NaN. -/
theorem c2_nan_panics :
    extract (PyValue.float F64.nan) =
      Except.error (BridgeError.panicked "Could not convert f64 to serde_json::Number") := by
  simp [extract, numberFromF64]

/-- C3: the runtime accessor is claimed to construct the runtime at most
once under concurrency; under the interleaving in which both threads
evaluate the unsynchronized `if let Some(r) = &RUNTIME` check before
either stores its runtime, `get_or_set_runtime` constructs two runtimes
(the second store overwrites the first), refuting the at-most-once
guarantee. -/
theorem c3_race_builds_twice :
    rtRunSched rtRaceSchedule rtInit =
      ⟨some 1, 2, ThreadPC.done 1, ThreadPC.done 1⟩ ∧
    (rtRunSched rtRaceSchedule rtInit).built = 2 := by
  constructor <;> rfl

/-- C4: a failed native stream element is claimed to be translated into a
host-visible error, with the sequence exhausted afterwards; the code
instead panics via `o.expect("Error calling next on TransformerStream")`,
and — the pulled element having been consumed while the rest of the
sequence remains — a subsequent step on a stream with a later successful
element still yields a value. -/
theorem c4_stream_error_panics :
    anext [Except.error "boom", Except.ok Json.null] =
      (AnextResult.panicked "Error calling next on TransformerStream",
        [Except.ok Json.null]) ∧
    anextTrace [Except.error "boom", Except.ok Json.null] 2 =
      [AnextResult.panicked "Error calling next on TransformerStream",
        AnextResult.value PyValue.none] := by
  constructor
  · simp [anext, elemStep]
  · simp [anextTrace, anext, elemStep, into_py]

/-- C5: for every dynamic value built from the six supported shapes, with
integer-tagged numbers in the representable i64 range and pairwise
distinct object keys, converting to the host and back yields the same
value — element order of arrays and key insertion order of objects
included, since the result is equality of the recursive structures. -/
theorem c5_roundtrip (v : Json) (h : wfJson v = true) :
    ∃ hv, into_py v = Except.ok hv ∧ extract hv = Except.ok v :=
  roundtrip_json v h

/-- Witness for C5 at the spec's own example object with keys "a", "b". -/
theorem c5_roundtrip_witness :
    wfJson (Json.obj [("a", Json.numInt 1), ("b", Json.numInt 2)]) = true ∧
    ∃ hv, into_py (Json.obj [("a", Json.numInt 1), ("b", Json.numInt 2)]) =
        Except.ok hv ∧
      extract hv = Except.ok (Json.obj [("a", Json.numInt 1), ("b", Json.numInt 2)]) := by
  have hwf : wfJson (Json.obj [("a", Json.numInt 1), ("b", Json.numInt 2)]) = true := by
    simp [wfJson, wfKVs, nodupKeys, nodupKeysL, keyMem, fitsI64]
  exact ⟨hwf, c5_roundtrip _ hwf⟩

/-- C6: `to_host` (`Json::into_py`) is claimed total and non-failing on
every dynamic value; on an integer-tagged number that does not fit in
i64 (a u64-backed serde number such as 2^63) the code panics via
`as_i64().expect("Error converting to i64 in impl ToPyObject for Json")`
— shown here by evaluating the conversion at that number. -/
theorem c6_into_py_overflow_panics :
    into_py (Json.numInt (2 ^ 63)) =
      Except.error (BridgeError.panicked "Error converting to i64 in impl ToPyObject for Json") := by
  simp [into_py, fitsI64]

/-- C7: a native sequence of exactly N successful (well-formed) elements
yields N value results in emission order, followed by the
iteration-complete signal on every further step (idempotent End); the
N = 0 case yields End on the first step. -/
theorem c7_stream_exhaustion (elems : List StreamElem) (k : Nat)
    (h : ∀ e ∈ elems, ∃ j, e = Except.ok j ∧ wfJson j = true) :
    anextTrace elems (elems.length + k) =
      elems.map elemStep ++ List.replicate k AnextResult.stopIteration ∧
    ∀ e ∈ elems, ∃ hv, elemStep e = AnextResult.value hv := by
  refine ⟨anextTrace_run elems k, ?_⟩
  intro e he
  obtain ⟨j, rfl, hwf⟩ := h e he
  obtain ⟨hv, h1, _⟩ := roundtrip_json j hwf
  exact ⟨hv, by simp [elemStep, h1]⟩

/-- Witness for C7 on a one-element successful sequence stepped twice
past its end. -/
theorem c7_stream_exhaustion_witness :
    (∀ e ∈ ([Except.ok Json.null] : List StreamElem),
        ∃ j, e = Except.ok j ∧ wfJson j = true) ∧
    (anextTrace [Except.ok Json.null]
        (([Except.ok Json.null] : List StreamElem).length + 2) =
      ([Except.ok Json.null] : List StreamElem).map elemStep ++
        List.replicate 2 AnextResult.stopIteration ∧
    ∀ e ∈ ([Except.ok Json.null] : List StreamElem),
        ∃ hv, elemStep e = AnextResult.value hv) := by
  have hh : ∀ e ∈ ([Except.ok Json.null] : List StreamElem),
      ∃ j, e = Except.ok j ∧ wfJson j = true := by
    intro e he
    rw [List.mem_singleton] at he
    subst he
    exact ⟨Json.null, rfl, by simp [wfJson]⟩
  exact ⟨hh, c7_stream_exhaustion [Except.ok Json.null] 2 hh⟩

/-- C8: a second logger installation attempt is claimed never to
terminate the process; `init_logger` does return the recoverable
`SetLoggerError`, but the module entry point `pgml` unwraps it, so
loading the bridge module with a logger already installed panics instead
of ignoring or warning. -/
theorem c8_second_install_panics :
    init_logger pgmlDefaultFilter ⟨true, LogLevelFilter.error⟩ =
      Except.error SetLoggerErr.alreadySet ∧
    pgml_module ⟨true, LogLevelFilter.error⟩ =
      Except.error (BridgeError.panicked "called Result::unwrap on an Err value: SetLoggerError") := by
  constructor <;> rfl

/-- C9 counterexample: with the filter installed at Trace, a Debug record
passes the installed level filter yet produces no output line, because
`SimpleLogger::enabled` caps acceptance at Info — refuting the claim that
the installed filter alone is the minimum accepted severity. -/
theorem c9_filter_counterexample :
    LogLevel.debug.toNat ≤ LogLevelFilter.trace.toNat ∧
    logRecord LogLevelFilter.trace LogLevel.debug "message" = [] := by
  constructor
  · decide
  · rfl

/-- C9 amended: every record accepted by both the installed level filter
and the logger's hard-coded Info cap produces exactly one standard-output
line of the form LEVEL - message, and no other record produces output;
the module entry point installs the default filter Error, under which
exactly the error-level records produce output. -/
theorem c9_line_format_and_default :
    (∀ (f : LogLevelFilter) (l : LogLevel) (m : String),
      logRecord f l m =
        if l.toNat ≤ f.toNat ∧ l.toNat ≤ LogLevel.info.toNat
        then [l.display ++ " - " ++ m] else []) ∧
    pgmlDefaultFilter = LogLevelFilter.error ∧
    (∀ (l : LogLevel) (m : String),
      logRecord pgmlDefaultFilter l m ≠ [] ↔ l = LogLevel.error) := by
  refine ⟨?_, rfl, ?_⟩
  · intro f l m
    cases f <;> cases l <;>
      simp [logRecord, simpleLoggerLog, simpleLoggerEnabled,
        LogLevel.toNat, LogLevelFilter.toNat]
  · intro l m
    cases l <;>
      simp [logRecord, pgmlDefaultFilter, simpleLoggerLog,
        simpleLoggerEnabled, LogLevel.toNat, LogLevelFilter.toNat]

/-- C10: a host bool also satisfies the PyInt runtime type test (CPython
bools are ints), but because `Json::extract` performs the PyBool test
first, extraction yields the Bool variant, never Number; and the outbound
direction maps Bool back to a host bool, so round-tripping a Bool never
changes its variant tag. -/
theorem c10_bool_before_int (b : Bool) :
    isInstanceOfPyBool (PyValue.bool b) = true ∧
    isInstanceOfPyInt (PyValue.bool b) = true ∧
    extract (PyValue.bool b) = Except.ok (Json.bool b) ∧
    into_py (Json.bool b) = Except.ok (PyValue.bool b) := by
  refine ⟨rfl, rfl, ?_, ?_⟩
  · simp [extract]
  · simp [into_py]
